import Mathlib

/-!
Verification development for the `dui` immediate-mode UI state layer.

The definitions below are a shallow embedding of the C++ sources:
* `src/State.hpp` — the identity/focus state machine (`State`, `checkMouse`,
  `beginGroup`, `endGroup`, `beginFrame`, `endFrame`, `event`);
* `src/DisplayList.hpp` — the ordered draw-command list (`DisplayList`,
  `insert`, `clip`).

Modelling conventions:
* C++ `std::string` / `std::string_view` values are modelled as `List Char`;
  `substr`, indexing and `erase` become `List.take` / `List.drop` / `List.getD`.
* SDL integer coordinates are modelled as `Int` (no overflow is relevant to
  any property considered here).
* `SDL_PointInRect` and `SDL_IntersectRect` are external SDL primitives; they
  are modelled by their documented geometric semantics (half-open rectangles,
  a rectangle with non-positive width or height is empty).
* Fields of `State` that no modelled operation reads or that belong to
  out-of-scope collaborators (the renderer handle, the font, the tick counter,
  and the display-list member, whose `pushClip`/`popClip` helpers do not exist
  in `src/DisplayList.hpp`) are omitted from the structure; no modelled
  operation's behaviour depends on them.
-/

namespace Dui

/-- A string of the C++ source, modelled as a list of characters. -/
abbrev Str := List Char

/-- `dui::groupNameSeparator` from `src/State.hpp`. -/
def groupNameSeparator : Char := '/'

/-- `SDL_Point`. -/
structure SDLPoint where
  x : Int
  y : Int
deriving DecidableEq, Repr

/-- `SDL_Rect`. -/
structure SDLRect where
  x : Int
  y : Int
  w : Int
  h : Int
deriving DecidableEq, Repr

/-- `SDL_PointInRect`: the point lies in the half-open rectangle. -/
def pointInRect (p : SDLPoint) (r : SDLRect) : Bool :=
  r.x ≤ p.x && p.x < r.x + r.w && r.y ≤ p.y && p.y < r.y + r.h

/-- `SDL_IntersectRect` used as an overlap test: the two rectangles have a
non-empty intersection (an empty rectangle intersects nothing). -/
def hasIntersection (a b : SDLRect) : Bool :=
  max a.x b.x < min (a.x + a.w) (b.x + b.w) &&
  max a.y b.y < min (a.y + a.h) (b.y + b.h)

/-- `dui::MouseAction` from `src/State.hpp`. -/
inductive MouseAction where
  | NONE
  | GRAB
  | HOLD
  | ACTION
  | CANCEL
  | DRAG
deriving DecidableEq, Repr

/-- `dui::TextAction` from `src/State.hpp`. -/
inductive TextAction where
  | NONE
  | INPUT
  | BACKSPACE
deriving DecidableEq, Repr

/-- The mutable fields of `dui::State` (`src/State.hpp`) that the modelled
operations read or write. -/
structure State where
  inFrame : Bool
  mPos : SDLPoint
  mLeftPressed : Bool
  eGrabbed : Str
  mHovering : Bool
  mGrabbing : Bool
  mReleasing : Bool
  eActive : Str
  tBuffer : List Nat
  tChanged : Bool
  tAction : TextAction
  group : Str
  gGrabbed : Bool
  gActive : Bool
deriving DecidableEq, Repr

/-- The member defaults of `dui::State` (uninitialised members get zero). -/
def State.initial : State where
  inFrame := false
  mPos := ⟨0, 0⟩
  mLeftPressed := false
  eGrabbed := []
  mHovering := false
  mGrabbing := false
  mReleasing := false
  eActive := []
  tBuffer := []
  tChanged := false
  tAction := TextAction.NONE
  group := []
  gGrabbed := false
  gActive := false

/-- `State::isSameGroupId` (`src/State.hpp:262-275`): `qualifiedId` equals the
current group prefix, then the separator, then `id`. -/
def State.isSameGroupId (s : State) (qualifiedId id : Str) : Bool :=
  let groupSize := s.group.length
  if qualifiedId.length < groupSize + 1 then
    false
  else if qualifiedId.take groupSize ≠ s.group ∨
      qualifiedId.getD groupSize ' ' ≠ groupNameSeparator ∨
      qualifiedId.drop (groupSize + 1) ≠ id then
    false
  else
    true

/-- The fully qualified form of `id` under prefix `group`: the three appends
`eGrabbed = group; eGrabbed += groupNameSeparator; eGrabbed += id` of
`State::checkMouse`. -/
def qualified (group id : Str) : Str :=
  group ++ groupNameSeparator :: id

/-- `State::checkMouse` (`src/State.hpp:277-320`), returning the action and
the updated state. -/
def State.checkMouse (s : State) (id : Str) (r : SDLRect) : MouseAction × State :=
  if s.eGrabbed.isEmpty then
    if !s.mLeftPressed then
      (MouseAction.NONE, s)
    else if pointInRect s.mPos r && !s.mGrabbing then
      let q := qualified s.group id
      (MouseAction.GRAB,
        { s with eGrabbed := q, eActive := q,
                 gGrabbed := true, gActive := true, mGrabbing := true })
    else if s.isSameGroupId s.eActive id then
      (MouseAction.NONE, { s with eActive := [] })
    else
      (MouseAction.NONE, s)
  else if !s.isSameGroupId s.eGrabbed id then
    (MouseAction.NONE, s)
  else
    -- the C++ code first sets `gGrabbed = true`, then branches on
    -- `mLeftPressed` / `mGrabbing` / the rectangle test, none of which the
    -- assignment touches; the assignment is inlined into each outcome here
    if s.mLeftPressed then
      if s.mGrabbing then
        (MouseAction.GRAB, { s with gGrabbed := true })
      else if !pointInRect s.mPos r then
        (MouseAction.DRAG, { s with gGrabbed := true })
      else
        (MouseAction.HOLD, { s with gGrabbed := true })
    else
      if !pointInRect s.mPos r then
        (MouseAction.CANCEL, { s with gGrabbed := true, mReleasing := true })
      else
        (MouseAction.ACTION, { s with gGrabbed := true, mReleasing := true })

/-- `State::beginGroup` (`src/State.hpp:322-360`); the leading
`dList.popClip()` call concerns an omitted collaborator. -/
def State.beginGroup (s : State) (id : Str) (r : SDLRect) : State :=
  if id.isEmpty then
    s
  else
    let idSize := id.length
    let groupSize := s.group.length
    if groupSize > 0 then
      let gGrabbed1 :=
        if ¬s.gGrabbed ∨ s.eGrabbed.length ≤ idSize + groupSize + 1 ∨
            (s.eGrabbed.drop groupSize).take (idSize + 1) ≠ id ∨
            s.eGrabbed.getD (groupSize + idSize + 1) ' ' ≠ groupNameSeparator then
          false
        else
          s.gGrabbed
      let gActive1 :=
        if ¬s.gActive ∨ s.eActive.length ≤ idSize + groupSize + 1 ∨
            (s.eActive.drop groupSize).take (idSize + 1) ≠ id ∨
            s.eActive.getD (groupSize + idSize + 1) ' ' ≠ groupNameSeparator then
          false
        else
          s.gActive
      { s with group := s.group ++ groupNameSeparator :: id,
               gGrabbed := gGrabbed1, gActive := gActive1 }
    else
      let gGrabbed1 :=
        if s.eGrabbed.length ≤ idSize ∨ s.eGrabbed.take idSize ≠ id ∨
            s.eGrabbed.getD idSize ' ' ≠ groupNameSeparator then
          false
        else
          true
      let gActive1 :=
        if s.eActive.length ≤ idSize ∨ s.eActive.take idSize ≠ id ∨
            s.eActive.getD idSize ' ' ≠ groupNameSeparator then
          false
        else
          true
      { s with group := s.group ++ id, gGrabbed := gGrabbed1, gActive := gActive1 }

/-- `State::endGroup` (`src/State.hpp:362-394`); the trailing
`dList.pushClip(r)` call concerns an omitted collaborator. The `SDL_assert`
statements are preconditions of the C++ code, not behaviour; the modelled
function performs the same mutations the C++ code performs when they hold. -/
def State.endGroup (s : State) (id : Str) (r : SDLRect) : State :=
  if id.isEmpty then
    s
  else if id.length ≥ s.group.length then
    let mHovering1 :=
      if ¬s.mHovering ∧ pointInRect s.mPos r then true else s.mHovering
    { s with group := [], gActive := false, gGrabbed := false,
             mHovering := mHovering1 }
  else
    let groupSize := s.group.length
    let nextSize := groupSize - id.length - 1
    let group1 := s.group.take nextSize
    let gGrabbed1 :=
      if ¬s.gGrabbed ∧ s.eGrabbed.length > nextSize ∧
          s.eGrabbed.take nextSize = group1 ∧
          s.eGrabbed.getD nextSize ' ' = groupNameSeparator then
        true
      else
        s.gGrabbed
    let gActive1 :=
      if ¬s.gActive ∧ s.eActive.length > nextSize ∧
          s.eActive.take nextSize = group1 ∧
          s.eActive.getD nextSize ' ' = groupNameSeparator then
        true
      else
        s.gActive
    { s with group := group1, gGrabbed := gGrabbed1, gActive := gActive1 }

/-- `SDL_BUTTON_LEFT`. -/
def SDL_BUTTON_LEFT : Nat := 1

/-- `SDLK_BACKSPACE`. -/
def SDLK_BACKSPACE : Nat := 8

/-- `SDL_TEXTINPUTEVENT_TEXT_SIZE`. -/
def SDL_TEXTINPUTEVENT_TEXT_SIZE : Nat := 32

/-- The SDL events `State::event` inspects, with the fields it reads. -/
inductive Event where
  | mouseButtonDown (x y : Int) (button : Nat)
  | mouseMotion (x y : Int)
  | mouseButtonUp (x y : Int)
  | textInput (text : List Nat)
  | keyDown (sym : Nat)
deriving DecidableEq, Repr

/-- The text-normalisation loop of `State::event`'s `SDL_TEXTINPUT` branch
(`src/State.hpp:415-428`): stop at the terminator, drop UTF-8 continuation
bytes, replace other non-ASCII lead bytes by the placeholder `'\x0f'`. -/
def normalizeText : List Nat → List Nat
  | [] => []
  | b :: rest =>
    if b = 0 then
      []
    else if b.land 0xc0 = 0x80 then
      normalizeText rest
    else if b.land 0x80 ≠ 0 then
      0x0f :: normalizeText rest
    else
      b :: normalizeText rest

/-- `State::event` (`src/State.hpp:396-437`). -/
def State.event (s : State) : Event → State
  | Event.mouseButtonDown x y button =>
    let s1 : State := { s with mPos := ⟨x, y⟩ }
    if button = SDL_BUTTON_LEFT then { s1 with mLeftPressed := true } else s1
  | Event.mouseMotion x y =>
    if !(s.eGrabbed.isEmpty && s.mLeftPressed) then
      { s with mPos := ⟨x, y⟩ }
    else
      s
  | Event.mouseButtonUp x y =>
    { s with mPos := ⟨x, y⟩, mLeftPressed := false }
  | Event.textInput text =>
    if s.eActive.isEmpty then
      s
    else
      { s with tBuffer := normalizeText (text.take SDL_TEXTINPUTEVENT_TEXT_SIZE),
               tChanged := true, tAction := TextAction.INPUT }
  | Event.keyDown sym =>
    if sym = SDLK_BACKSPACE then
      { s with tChanged := true, tAction := TextAction.BACKSPACE }
    else
      s

/-- `State::beginFrame` (`src/State.hpp:236-243`); the display-list clear and
tick snapshot concern omitted collaborators. -/
def State.beginFrame (s : State) : State :=
  { s with inFrame := true, mHovering := false }

/-- `State::endFrame` (`src/State.hpp:245-255`). -/
def State.endFrame (s : State) : State :=
  let s1 : State := { s with inFrame := false, tChanged := false, mGrabbing := false }
  if s1.mReleasing then
    { s1 with eGrabbed := [], mReleasing := false }
  else
    s1

/-- `SDL_Color`. -/
structure SDLColor where
  r : Nat
  g : Nat
  b : Nat
  a : Nat
deriving DecidableEq, Repr

/-- `DisplayList::Item` (`src/DisplayList.hpp:22-27`). -/
structure DLItem where
  rect : SDLRect
  color : SDLColor
  content : Nat
deriving DecidableEq, Repr

/-- `dui::DisplayList` (`src/DisplayList.hpp`): the ordered list of recorded
draw commands. -/
structure DisplayList where
  items : List DLItem
deriving DecidableEq, Repr

/-- `DisplayList::insert` (`src/DisplayList.hpp:36-41`): record the command
unless the colour is fully transparent. -/
def DisplayList.insert (dl : DisplayList) (rect : SDLRect) (color : SDLColor)
    (ch : Nat) : DisplayList :=
  if color.a > 0 then
    { items := dl.items ++ [⟨rect, color, ch⟩] }
  else
    dl

/-- `DisplayList::clip` (`src/DisplayList.hpp:48-58`): the erase–remove idiom
starting at `pos` keeps, in order, exactly the commands whose rectangle
intersects `rect`. -/
def DisplayList.clip (dl : DisplayList) (rect : SDLRect) (pos : Nat) : DisplayList :=
  if pos ≥ dl.items.length then
    dl
  else
    { items := dl.items.take pos ++
        (dl.items.drop pos).filter (fun item => hasIntersection rect item.rect) }

/-- One in-frame operation: a `checkMouse` query or a group push/pop, as
emitted by widget code between `beginFrame` and `endFrame`. -/
inductive Op where
  | query (id : Str) (r : SDLRect)
  | openGroup (id : Str) (r : SDLRect)
  | closeGroup (id : Str) (r : SDLRect)
deriving DecidableEq, Repr

/-- Run one in-frame operation; a query records the fully qualified id it was
made under together with its result. -/
def State.runOp (s : State) : Op → Option (Str × MouseAction) × State
  | Op.query id r =>
    let q := qualified s.group id
    let res := s.checkMouse id r
    (some (q, res.1), res.2)
  | Op.openGroup id r => (none, s.beginGroup id r)
  | Op.closeGroup id r => (none, s.endGroup id r)

/-- Run a sequence of in-frame operations, collecting the query results in
emission order. -/
def State.runOps (s : State) : List Op → List (Str × MouseAction) × State
  | [] => ([], s)
  | op :: ops =>
    let step := s.runOp op
    let rest := step.2.runOps ops
    (step.1.toList ++ rest.1, rest.2)

mutual
/-- A properly nested fragment of a frame: either a single `checkMouse` query
or a group bracketed by matching `beginGroup`/`endGroup` calls around nested
content. -/
inductive GItem where
  | query (id : Str) (r : SDLRect) : GItem
  | group (id : Str) (rIn rOut : SDLRect) (inner : GItems) : GItem

/-- A sequence of properly nested fragments. -/
inductive GItems where
  | nil : GItems
  | cons (t : GItem) (ts : GItems) : GItems
end

mutual
/-- Run one properly nested fragment against the state. -/
def runGItem (s : State) : GItem → State
  | GItem.query id r => (s.checkMouse id r).2
  | GItem.group id rIn rOut inner =>
    (runGItems (s.beginGroup id rIn) inner).endGroup id rOut

/-- Run a sequence of properly nested fragments against the state. -/
def runGItems (s : State) : GItems → State
  | GItems.nil => s
  | GItems.cons t ts => runGItems (runGItem s t) ts
end

/-- A frame-start state with the left button pressed at `(15, 15)`. -/
def pressState : State :=
  { State.initial with inFrame := true, mLeftPressed := true, mPos := ⟨15, 15⟩ }

/-- A widget rectangle containing `(15, 15)`. -/
def btnRect : SDLRect := ⟨10, 10, 20, 20⟩

/-- A frame-start state in which the root-level widget `"a"` is grabbed and
the button has been released. -/
def releaseState : State :=
  { State.initial with inFrame := true, eGrabbed := ['/', 'a'], mPos := ⟨15, 15⟩ }

/-- A frame-start state in which the root-level widget `"a"` is active,
nothing is grabbed, and the button is not pressed. -/
def activeNoPressState : State :=
  { State.initial with inFrame := true, eActive := ['/', 'a'] }

/-- A state in which the root-level widget `"a"` is grabbed while the left
button is held pressed. -/
def grabDragState : State :=
  { State.initial with eGrabbed := ['/', 'a'], mLeftPressed := true }

/-- A state in which `"panel/list/item2"` is grabbed and no group is open. -/
def nestedGrabState : State :=
  { State.initial with eGrabbed := "panel/list/item2".toList }

/-- A group rectangle for the nested-group scenario. -/
def panelRect : SDLRect := ⟨0, 0, 100, 100⟩

/-- The nested-group scenario, step 1: enter `"panel"`. -/
def c7s1 : State := nestedGrabState.beginGroup "panel".toList panelRect

/-- The nested-group scenario, step 2: enter `"list"`. -/
def c7s2 : State := c7s1.beginGroup "list".toList panelRect

/-- The nested-group scenario, step 3: exit `"list"`. -/
def c7s3 : State := c7s2.endGroup "list".toList panelRect

/-- The nested-group scenario, step 4: exit `"panel"`. -/
def c7s4 : State := c7s3.endGroup "panel".toList panelRect

/-- Two overlapping-rect queries for distinct ids in one frame. -/
def c2ops : List Op := [Op.query ['a'] btnRect, Op.query ['b'] btnRect]

/- ======================= helper lemmas ======================= -/

theorem isSameGroupId_iff (s : State) (q id : Str) :
    s.isSameGroupId q id = true ↔ q = qualified s.group id := by
  unfold State.isSameGroupId qualified
  by_cases hlen : q.length < s.group.length + 1
  · rw [if_pos hlen]
    simp only [Bool.false_eq_true, false_iff]
    intro hq
    rw [hq, List.length_append, List.length_cons] at hlen
    omega
  · rw [if_neg hlen]
    constructor
    · intro h
      by_cases hc : q.take s.group.length ≠ s.group ∨
          q.getD s.group.length ' ' ≠ groupNameSeparator ∨
          q.drop (s.group.length + 1) ≠ id
      · rw [if_pos hc] at h
        exact absurd h (by simp)
      · push_neg at hc
        obtain ⟨h1, h2, h3⟩ := hc
        have hlt : s.group.length < q.length := by omega
        have hdrop : q.drop s.group.length =
            groupNameSeparator :: q.drop (s.group.length + 1) := by
          rw [List.drop_eq_getElem_cons hlt, ← List.getD_eq_getElem q ' ' hlt, h2]
        calc q = q.take s.group.length ++ q.drop s.group.length :=
              (List.take_append_drop _ _).symm
          _ = s.group ++ groupNameSeparator :: id := by rw [h1, hdrop, h3]
    · intro hq
      subst hq
      have h1 : (s.group ++ groupNameSeparator :: id).take s.group.length = s.group :=
        List.take_left _ _
      have h2 : (s.group ++ groupNameSeparator :: id).getD s.group.length ' ' =
          groupNameSeparator := by
        rw [List.getD_append_right _ _ _ _ (le_refl _)]
        simp
      have h3 : (s.group ++ groupNameSeparator :: id).drop (s.group.length + 1) = id := by
        have : s.group ++ groupNameSeparator :: id =
            (s.group ++ [groupNameSeparator]) ++ id := by simp
        rw [this, List.drop_left' (by simp)]
      rw [if_neg]
      push_neg
      exact ⟨h1, h2, h3⟩

theorem qualified_ne_nil (group id : Str) : qualified group id ≠ [] :=
  List.append_ne_nil_of_right_ne_nil _ (List.cons_ne_nil _ _)

theorem isSameGroupId_nil (s : State) (id : Str) :
    s.isSameGroupId [] id = false := by
  unfold State.isSameGroupId
  simp

/-- `checkMouse` never changes the group prefix. -/
theorem checkMouse_group (s : State) (id : Str) (r : SDLRect) :
    (s.checkMouse id r).2.group = s.group := by
  unfold State.checkMouse
  repeat' split
  all_goals rfl

/-- `beginGroup` changes neither the grabbed id, the grabbing flag, the
active id, nor the pressed flag. -/
theorem beginGroup_preserves (s : State) (id : Str) (r : SDLRect) :
    (s.beginGroup id r).eGrabbed = s.eGrabbed ∧
    (s.beginGroup id r).mGrabbing = s.mGrabbing ∧
    (s.beginGroup id r).eActive = s.eActive ∧
    (s.beginGroup id r).mLeftPressed = s.mLeftPressed := by
  unfold State.beginGroup
  dsimp only
  repeat' split
  all_goals exact ⟨rfl, rfl, rfl, rfl⟩

/-- `endGroup` changes neither the grabbed id, the grabbing flag, the active
id, nor the pressed flag. -/
theorem endGroup_preserves (s : State) (id : Str) (r : SDLRect) :
    (s.endGroup id r).eGrabbed = s.eGrabbed ∧
    (s.endGroup id r).mGrabbing = s.mGrabbing ∧
    (s.endGroup id r).eActive = s.eActive ∧
    (s.endGroup id r).mLeftPressed = s.mLeftPressed := by
  unfold State.endGroup
  dsimp only
  repeat' split
  all_goals exact ⟨rfl, rfl, rfl, rfl⟩

/-- `endFrame` clears the grabbed id when the releasing flag is set. -/
theorem endFrame_release (t : State) (h : t.mReleasing = true) :
    (t.endFrame).eGrabbed = [] := by
  unfold State.endFrame
  simp [h]

/-- `endFrame` keeps the grabbed id when the releasing flag is clear. -/
theorem endFrame_no_release (t : State) (h : t.mReleasing = false) :
    (t.endFrame).eGrabbed = t.eGrabbed := by
  unfold State.endFrame
  simp [h]

/- ======================= C1 ======================= -/

/-- C1: a `checkMouse` call returns a non-`NONE` action only if the fully
qualified form of its id equals the grabbed id, or (for the initial grab) the
grabbed id is empty, the left button is pressed, the pointer is inside the
rect and no grab has happened yet this frame; in particular, when something
else is grabbed the result is `NONE` regardless of geometry. -/
theorem checkMouse_nonNone_requires (s : State) (id : Str) (r : SDLRect) :
    ((s.checkMouse id r).1 ≠ MouseAction.NONE →
      s.eGrabbed = qualified s.group id ∨
      (s.eGrabbed = [] ∧ s.mLeftPressed = true ∧ pointInRect s.mPos r = true ∧
        s.mGrabbing = false)) ∧
    (s.eGrabbed ≠ [] → s.eGrabbed ≠ qualified s.group id →
      (s.checkMouse id r).1 = MouseAction.NONE) := by
  by_cases hg : s.eGrabbed = []
  · constructor
    · intro hact
      refine Or.inr ⟨hg, ?_⟩
      unfold State.checkMouse at hact
      simp only [hg, List.isEmpty_nil, if_true] at hact
      by_cases hp : s.mLeftPressed
      · simp only [hp, Bool.not_true, Bool.false_eq_true, if_false] at hact
        by_cases hcond : (pointInRect s.mPos r && !s.mGrabbing) = true
        · obtain ⟨h1, h2⟩ := (Bool.and_eq_true _ _).mp hcond
          exact ⟨hp, h1, by simpa using h2⟩
        · rw [if_neg hcond] at hact
          split at hact <;> simp at hact
      · simp [hp] at hact
    · intro hne
      exact absurd hg hne
  · have hE : s.eGrabbed.isEmpty = false := List.isEmpty_eq_false.mpr hg
    by_cases hs : s.isSameGroupId s.eGrabbed id = true
    · have heq := (isSameGroupId_iff s s.eGrabbed id).mp hs
      exact ⟨fun _ => Or.inl heq, fun _ hne => absurd heq hne⟩
    · have hnone : (s.checkMouse id r).1 = MouseAction.NONE := by
        unfold State.checkMouse
        simp [hE, hs]
      exact ⟨fun hact => absurd hnone hact, fun _ _ => hnone⟩

/-- Witness for C1: the first part fires on an initial grab, the second on a
query for an id other than the grabbed one. -/
theorem checkMouse_nonNone_requires_witness :
    (pressState.eGrabbed = qualified pressState.group ['b'] ∨
      (pressState.eGrabbed = [] ∧ pressState.mLeftPressed = true ∧
        pointInRect pressState.mPos btnRect = true ∧ pressState.mGrabbing = false)) ∧
    (grabDragState.checkMouse ['b'] btnRect).1 = MouseAction.NONE :=
  ⟨(checkMouse_nonNone_requires pressState ['b'] btnRect).1 (by decide),
   (checkMouse_nonNone_requires grabDragState ['b'] btnRect).2 (by decide) (by decide)⟩

/- ======================= C3 ======================= -/

/-- C3: when nothing is grabbed, the left button is pressed, the pointer is
inside the rect and no grab has happened yet this frame, `checkMouse` returns
`GRAB`, the grabbed and active ids both become the qualified id, the
group-scope fast-path flags are set, and the per-frame grabbing flag is set. -/
theorem checkMouse_grab_transition (s : State) (id : Str) (r : SDLRect)
    (hg : s.eGrabbed = []) (hp : s.mLeftPressed = true)
    (hin : pointInRect s.mPos r = true) (hng : s.mGrabbing = false) :
    (s.checkMouse id r).1 = MouseAction.GRAB ∧
    (s.checkMouse id r).2.eGrabbed = qualified s.group id ∧
    (s.checkMouse id r).2.eActive = qualified s.group id ∧
    (s.checkMouse id r).2.gGrabbed = true ∧
    (s.checkMouse id r).2.gActive = true ∧
    (s.checkMouse id r).2.mGrabbing = true := by
  unfold State.checkMouse
  simp [hg, hp, hin, hng]

/-- Witness for C3 at a concrete press inside a concrete rect. -/
theorem checkMouse_grab_transition_witness :
    (pressState.checkMouse ['b'] btnRect).1 = MouseAction.GRAB ∧
    (pressState.checkMouse ['b'] btnRect).2.eGrabbed = qualified pressState.group ['b'] ∧
    (pressState.checkMouse ['b'] btnRect).2.eActive = qualified pressState.group ['b'] ∧
    (pressState.checkMouse ['b'] btnRect).2.gGrabbed = true ∧
    (pressState.checkMouse ['b'] btnRect).2.gActive = true ∧
    (pressState.checkMouse ['b'] btnRect).2.mGrabbing = true :=
  checkMouse_grab_transition pressState ['b'] btnRect (by decide) (by decide)
    (by decide) (by decide)

/- ======================= C4 ======================= -/

/-- C4: querying the grabbed element with the button released yields `ACTION`
inside the rect and `CANCEL` outside; the call itself leaves the grabbed id
unchanged and only sets the releasing flag, and the grabbed id is cleared
exactly at `endFrame` when the releasing flag is set. -/
theorem checkMouse_release_action_cancel (s : State) (id : Str) (r : SDLRect)
    (hsame : s.isSameGroupId s.eGrabbed id = true) (hp : s.mLeftPressed = false) :
    (s.checkMouse id r).1 =
      (if pointInRect s.mPos r then MouseAction.ACTION else MouseAction.CANCEL) ∧
    (s.checkMouse id r).2.eGrabbed = s.eGrabbed ∧
    (s.checkMouse id r).2.mReleasing = true ∧
    ((s.checkMouse id r).2.endFrame).eGrabbed = [] ∧
    (∀ t : State, t.mReleasing = false → (t.endFrame).eGrabbed = t.eGrabbed) := by
  have hne : s.eGrabbed ≠ [] := by
    intro h0
    rw [h0, isSameGroupId_nil] at hsame
    exact absurd hsame (by simp)
  have hE : s.eGrabbed.isEmpty = false := List.isEmpty_eq_false.mpr hne
  have hck : s.checkMouse id r =
      (if !pointInRect s.mPos r then MouseAction.CANCEL else MouseAction.ACTION,
        { s with gGrabbed := true, mReleasing := true }) := by
    unfold State.checkMouse
    simp only [hE, Bool.false_eq_true, if_false, hsame, Bool.not_true, hp]
    split <;> rfl
  refine ⟨?_, ?_, ?_, ?_, endFrame_no_release⟩
  · rw [hck]
    by_cases hin : pointInRect s.mPos r <;> simp [hin]
  · rw [hck]
  · rw [hck]
  · rw [hck]
    exact endFrame_release _ rfl

/-- Witness for C4 at a concrete release inside the grabbed widget's rect. -/
theorem checkMouse_release_action_cancel_witness :
    (releaseState.checkMouse ['a'] btnRect).1 =
      (if pointInRect releaseState.mPos btnRect then MouseAction.ACTION
        else MouseAction.CANCEL) ∧
    (releaseState.checkMouse ['a'] btnRect).2.eGrabbed = releaseState.eGrabbed ∧
    (releaseState.checkMouse ['a'] btnRect).2.mReleasing = true ∧
    ((releaseState.checkMouse ['a'] btnRect).2.endFrame).eGrabbed = [] ∧
    (∀ t : State, t.mReleasing = false → (t.endFrame).eGrabbed = t.eGrabbed) :=
  checkMouse_release_action_cancel releaseState ['a'] btnRect (by decide) (by decide)

/- ======================= C5 ======================= -/

/-- C5 counterexample: with nothing grabbed, the button not pressed and the
queried widget active, `checkMouse` returns `NONE` but does NOT clear the
active id (the claimed deactivation does not happen on a no-press query). -/
theorem checkMouse_nopress_keeps_active_cex :
    activeNoPressState.eGrabbed = [] ∧
    activeNoPressState.mLeftPressed = false ∧
    activeNoPressState.eActive = qualified activeNoPressState.group ['a'] ∧
    (activeNoPressState.checkMouse ['a'] btnRect).1 = MouseAction.NONE ∧
    (activeNoPressState.checkMouse ['a'] btnRect).2.eActive =
      activeNoPressState.eActive ∧
    (activeNoPressState.checkMouse ['a'] btnRect).2.eActive ≠ [] := by
  decide

/-- C5 as amended: with nothing grabbed and the button not pressed,
`checkMouse` returns `NONE` and leaves the state (in particular the active
id) unchanged. -/
theorem checkMouse_nograb_nopress (s : State) (id : Str) (r : SDLRect)
    (hg : s.eGrabbed = []) (hp : s.mLeftPressed = false) :
    s.checkMouse id r = (MouseAction.NONE, s) := by
  unfold State.checkMouse
  simp [hg, hp]

/-- Witness for the amended C5 at a concrete no-press query. -/
theorem checkMouse_nograb_nopress_witness :
    activeNoPressState.checkMouse ['a'] btnRect = (MouseAction.NONE, activeNoPressState) :=
  checkMouse_nograb_nopress activeNoPressState ['a'] btnRect (by decide) (by decide)

/- ======================= C6 ======================= -/

/-- C6 counterexample: a motion event fed while an element is grabbed and the
left button is held does update the stored pointer position. -/
theorem motion_while_grabbed_updates_pos_cex :
    grabDragState.eGrabbed ≠ [] ∧
    grabDragState.mLeftPressed = true ∧
    (grabDragState.event (Event.mouseMotion 5 5)).mPos ≠ grabDragState.mPos := by
  decide

/-- C6 as amended: a motion event leaves the state unchanged exactly when the
grabbed id is empty and the left button is pressed; in every other
button/grab configuration it updates the stored pointer position. -/
theorem motion_updates_pos_unless_ungrabbed_press (s : State) (x y : Int) :
    s.event (Event.mouseMotion x y) =
      if s.eGrabbed = [] ∧ s.mLeftPressed = true then s
      else { s with mPos := ⟨x, y⟩ } := by
  unfold State.event
  by_cases hg : s.eGrabbed = []
  · by_cases hp : s.mLeftPressed = true
    · simp [List.isEmpty_iff, hg, hp]
    · simp [List.isEmpty_iff, hg, hp]
  · simp [List.isEmpty_iff, hg]

/- ======================= C9 ======================= -/

/-- C9: `DisplayList::clip` leaves every command before `pos` unchanged and
in place, and the commands from `pos` on are exactly those of the original
suffix whose rectangle intersects `rect`, in their original order. -/
theorem clip_prefix_and_filter (dl : DisplayList) (rect : SDLRect) (pos : Nat) :
    ((dl.clip rect pos).items.take pos = dl.items.take pos) ∧
    ((dl.clip rect pos).items.drop pos =
      (dl.items.drop pos).filter (fun item => hasIntersection rect item.rect)) := by
  unfold DisplayList.clip
  split
  · rename_i hge
    refine ⟨rfl, ?_⟩
    rw [List.drop_eq_nil_of_le hge]
    rfl
  · rename_i hlt
    have hlen : (dl.items.take pos).length = pos :=
      List.length_take_of_le (by omega)
    exact ⟨List.take_left' hlen, List.drop_left' hlen⟩

/- ======================= C10 ======================= -/

/-- C10: a text-input event fed while no element is active is silently
dropped — the whole state, in particular the text buffer, the text-changed
flag and the text action kind, is unchanged. -/
theorem textInput_noactive_dropped (s : State) (text : List Nat)
    (h : s.eActive = []) :
    s.event (Event.textInput text) = s := by
  unfold State.event
  simp [h]

/-- Witness for C10 at a concrete text fragment. -/
theorem textInput_noactive_dropped_witness :
    State.initial.event (Event.textInput [72, 105]) = State.initial :=
  textInput_noactive_dropped State.initial [72, 105] (by decide)

/- ======================= C2 ======================= -/

/-- With something grabbed, `checkMouse` changes neither the grabbed id nor
the grabbing flag, and answers `NONE` whenever the query's qualified id is
not the grabbed id. -/
theorem checkMouse_grabbed_locked (s : State) (id : Str) (r : SDLRect)
    (h : s.eGrabbed ≠ []) :
    (s.checkMouse id r).2.eGrabbed = s.eGrabbed ∧
    (s.checkMouse id r).2.mGrabbing = s.mGrabbing ∧
    (qualified s.group id ≠ s.eGrabbed → (s.checkMouse id r).1 = MouseAction.NONE) := by
  have hE : s.eGrabbed.isEmpty = false := List.isEmpty_eq_false.mpr h
  unfold State.checkMouse
  simp only [hE, Bool.false_eq_true, if_false]
  by_cases hs : s.isSameGroupId s.eGrabbed id = true
  · have heq := (isSameGroupId_iff s s.eGrabbed id).mp hs
    simp only [hs, Bool.not_true, Bool.false_eq_true, if_false]
    refine ⟨?_, ?_, fun hne => absurd heq.symm hne⟩
    · repeat' split
      all_goals rfl
    · repeat' split
      all_goals rfl
  · have hs' : s.isSameGroupId s.eGrabbed id = false := by
      cases hb : s.isSameGroupId s.eGrabbed id
      · rfl
      · exact absurd hb hs
    simp [hs', Bool.not_false, if_true]

/-- A `GRAB` answer leaves the state with the query's qualified id grabbed
and the per-frame grabbing flag set. -/
theorem checkMouse_grab_result (s : State) (id : Str) (r : SDLRect)
    (h : (s.checkMouse id r).1 = MouseAction.GRAB) :
    (s.checkMouse id r).2.eGrabbed = qualified s.group id ∧
    (s.checkMouse id r).2.mGrabbing = true := by
  by_cases hg : s.eGrabbed = []
  · unfold State.checkMouse at h ⊢
    simp only [hg, List.isEmpty_nil, if_true] at h ⊢
    by_cases hp : s.mLeftPressed = true
    · rw [if_neg (by simp [hp])] at h ⊢
      by_cases hcond : (pointInRect s.mPos r && !s.mGrabbing) = true
      · rw [if_pos hcond]
        exact ⟨rfl, rfl⟩
      · rw [if_neg hcond] at h
        split at h <;> simp at h
    · have hpf : s.mLeftPressed = false := Bool.eq_false_iff.mpr hp
      rw [if_pos (show (!s.mLeftPressed) = true by rw [hpf]; rfl)] at h
      simp at h
  · have hE : s.eGrabbed.isEmpty = false := List.isEmpty_eq_false.mpr hg
    unfold State.checkMouse at h ⊢
    simp only [hE, Bool.false_eq_true, if_false] at h ⊢
    by_cases hs : s.isSameGroupId s.eGrabbed id = true
    · have heq := (isSameGroupId_iff s s.eGrabbed id).mp hs
      simp only [hs, Bool.not_true, Bool.false_eq_true, if_false] at h ⊢
      by_cases hp : s.mLeftPressed = true
      · rw [if_pos hp] at h ⊢
        by_cases hmg : s.mGrabbing = true
        · rw [if_pos hmg]
          exact ⟨heq ▸ rfl, hmg⟩
        · rw [if_neg hmg] at h
          split at h <;> simp at h
      · rw [if_neg hp] at h
        split at h <;> simp at h
    · have hs' : s.isSameGroupId s.eGrabbed id = false := by
        cases hb : s.isSameGroupId s.eGrabbed id
        · rfl
        · exact absurd hb hs
      rw [if_pos (show (!s.isSameGroupId s.eGrabbed id) = true by rw [hs']; rfl)] at h
      simp at h

/-- With nothing grabbed, any answer other than `GRAB` leaves the grabbed id
empty and the grabbing flag untouched. -/
theorem checkMouse_empty_nograb (s : State) (id : Str) (r : SDLRect)
    (hg : s.eGrabbed = []) (h : (s.checkMouse id r).1 ≠ MouseAction.GRAB) :
    (s.checkMouse id r).2.eGrabbed = [] ∧
    (s.checkMouse id r).2.mGrabbing = s.mGrabbing := by
  unfold State.checkMouse at h ⊢
  simp only [hg, List.isEmpty_nil, if_true] at h ⊢
  by_cases hp : s.mLeftPressed = true
  · rw [if_neg (by simp [hp])] at h ⊢
    by_cases hcond : (pointInRect s.mPos r && !s.mGrabbing) = true
    · rw [if_pos hcond] at h
      simp at h
    · rw [if_neg hcond]
      by_cases hsa : s.isSameGroupId s.eActive id = true
      · rw [if_pos hsa]
        exact ⟨rfl, rfl⟩
      · rw [if_neg hsa]
        exact ⟨hg, rfl⟩
  · have hpf : s.mLeftPressed = false := Bool.eq_false_iff.mpr hp
    rw [if_pos (show (!s.mLeftPressed) = true by rw [hpf]; rfl)]
    exact ⟨hg, rfl⟩

/-- Unfolding `runOps` on the empty operation list. -/
theorem runOps_nil (s : State) : s.runOps [] = ([], s) := rfl

/-- Unfolding `runOps` on a leading query. -/
theorem runOps_cons_query (s : State) (id : Str) (r : SDLRect) (ops : List Op) :
    s.runOps (Op.query id r :: ops) =
      ((qualified s.group id, (s.checkMouse id r).1) ::
          ((s.checkMouse id r).2.runOps ops).1,
        ((s.checkMouse id r).2.runOps ops).2) := rfl

/-- Unfolding `runOps` on a leading group push. -/
theorem runOps_cons_open (s : State) (id : Str) (r : SDLRect) (ops : List Op) :
    s.runOps (Op.openGroup id r :: ops) = (s.beginGroup id r).runOps ops := rfl

/-- Unfolding `runOps` on a leading group pop. -/
theorem runOps_cons_close (s : State) (id : Str) (r : SDLRect) (ops : List Op) :
    s.runOps (Op.closeGroup id r :: ops) = (s.endGroup id r).runOps ops := rfl

/-- Once an element is grabbed and the per-frame grabbing flag is set, the
rest of the frame cannot change either, and every query whose qualified id
differs from the grabbed id answers `NONE`. -/
theorem runOps_locked (ops : List Op) (s : State)
    (hm : s.mGrabbing = true) (hg : s.eGrabbed ≠ []) :
    (∀ p ∈ (s.runOps ops).1, p.1 ≠ s.eGrabbed → p.2 = MouseAction.NONE) ∧
    (s.runOps ops).2.eGrabbed = s.eGrabbed ∧
    (s.runOps ops).2.mGrabbing = true := by
  induction ops generalizing s with
  | nil =>
    refine ⟨?_, rfl, hm⟩
    intro p hp
    rw [runOps_nil] at hp
    simp at hp
  | cons op ops ih =>
    cases op with
    | query id r =>
      obtain ⟨he, hmm, hn⟩ := checkMouse_grabbed_locked s id r hg
      have hg' : (s.checkMouse id r).2.eGrabbed ≠ [] := by rw [he]; exact hg
      have hm' : (s.checkMouse id r).2.mGrabbing = true := by rw [hmm]; exact hm
      obtain ⟨ihmem, ihe, ihm⟩ := ih (s.checkMouse id r).2 hm' hg'
      rw [runOps_cons_query]
      refine ⟨?_, ?_, ?_⟩
      · intro p hp hne
        simp only [List.mem_cons] at hp
        rcases hp with hphead | hpmem
        · subst hphead
          exact hn hne
        · exact ihmem p hpmem (by rw [he]; exact hne)
      · show ((s.checkMouse id r).2.runOps ops).2.eGrabbed = s.eGrabbed
        rw [ihe, he]
      · exact ihm
    | openGroup id r =>
      obtain ⟨he, hmm, _, _⟩ := beginGroup_preserves s id r
      have hg' : (s.beginGroup id r).eGrabbed ≠ [] := by rw [he]; exact hg
      have hm' : (s.beginGroup id r).mGrabbing = true := by rw [hmm]; exact hm
      obtain ⟨ihmem, ihe, ihm⟩ := ih (s.beginGroup id r) hm' hg'
      rw [runOps_cons_open]
      exact ⟨fun p hp hne => ihmem p hp (by rw [he]; exact hne),
        by rw [ihe, he], ihm⟩
    | closeGroup id r =>
      obtain ⟨he, hmm, _, _⟩ := endGroup_preserves s id r
      have hg' : (s.endGroup id r).eGrabbed ≠ [] := by rw [he]; exact hg
      have hm' : (s.endGroup id r).mGrabbing = true := by rw [hmm]; exact hm
      obtain ⟨ihmem, ihe, ihm⟩ := ih (s.endGroup id r) hm' hg'
      rw [runOps_cons_close]
      exact ⟨fun p hp hne => ihmem p hp (by rw [he]; exact hne),
        by rw [ihe, he], ihm⟩

/-- The frame-wide single-grab property, proved under the invariant that a
set grabbing flag comes with a non-empty grabbed id. -/
theorem runOps_single_grab_aux (ops : List Op) (s : State)
    (H : s.mGrabbing = true → s.eGrabbed ≠ []) :
    (∀ p₁ ∈ (s.runOps ops).1, ∀ p₂ ∈ (s.runOps ops).1,
      p₁.2 = MouseAction.GRAB → p₂.2 = MouseAction.GRAB → p₁.1 = p₂.1) ∧
    (∀ l₁ p₁ l₂ p₂ l₃,
      (s.runOps ops).1 = l₁ ++ p₁ :: (l₂ ++ p₂ :: l₃) →
      p₁.2 = MouseAction.GRAB → p₂.1 ≠ p₁.1 → p₂.2 = MouseAction.NONE) := by
  induction ops generalizing s with
  | nil =>
    constructor
    · intro p₁ hp₁
      rw [runOps_nil] at hp₁
      simp at hp₁
    · intro l₁ p₁ l₂ p₂ l₃ heq
      rw [runOps_nil] at heq
      simp at heq
  | cons op ops ih =>
    cases op with
    | openGroup id r =>
      obtain ⟨he, hmm, _, _⟩ := beginGroup_preserves s id r
      have H' : (s.beginGroup id r).mGrabbing = true →
          (s.beginGroup id r).eGrabbed ≠ [] := by
        rw [hmm, he]
        exact H
      rw [runOps_cons_open]
      exact ih (s.beginGroup id r) H'
    | closeGroup id r =>
      obtain ⟨he, hmm, _, _⟩ := endGroup_preserves s id r
      have H' : (s.endGroup id r).mGrabbing = true →
          (s.endGroup id r).eGrabbed ≠ [] := by
        rw [hmm, he]
        exact H
      rw [runOps_cons_close]
      exact ih (s.endGroup id r) H'
    | query id r =>
      by_cases hres : (s.checkMouse id r).1 = MouseAction.GRAB
      · obtain ⟨he, hm⟩ := checkMouse_grab_result s id r hres
        have hgne : (s.checkMouse id r).2.eGrabbed ≠ [] := by
          rw [he]
          exact qualified_ne_nil _ _
        obtain ⟨lock, _, _⟩ := runOps_locked ops (s.checkMouse id r).2 hm hgne
        rw [he] at lock
        have grabeq : ∀ p ∈ ((s.checkMouse id r).2.runOps ops).1,
            p.2 = MouseAction.GRAB → p.1 = qualified s.group id := by
          intro p hp hpg
          by_contra hne
          rw [lock p hp hne] at hpg
          exact absurd hpg (by decide)
        rw [runOps_cons_query]
        constructor
        · intro p₁ hp₁ p₂ hp₂ h₁ h₂
          simp only [List.mem_cons] at hp₁ hp₂
          have e₁ : p₁.1 = qualified s.group id := by
            rcases hp₁ with he₁ | hm₁
            · rw [he₁]
            · exact grabeq p₁ hm₁ h₁
          have e₂ : p₂.1 = qualified s.group id := by
            rcases hp₂ with he₂ | hm₂
            · rw [he₂]
            · exact grabeq p₂ hm₂ h₂
          rw [e₁, e₂]
        · intro l₁ p₁ l₂ p₂ l₃ heq h₁ hne
          cases l₁ with
          | nil =>
            simp only [List.nil_append] at heq
            injection heq with hhead htail
            have hp₂ : p₂ ∈ ((s.checkMouse id r).2.runOps ops).1 := by
              rw [htail]
              simp
            have e₁ : p₁.1 = qualified s.group id := by rw [← hhead]
            exact lock p₂ hp₂ (by rw [e₁] at hne; exact hne)
          | cons x l₁' =>
            simp only [List.cons_append] at heq
            injection heq with hhead htail
            have hp₁ : p₁ ∈ ((s.checkMouse id r).2.runOps ops).1 := by
              rw [htail]
              simp
            have hp₂ : p₂ ∈ ((s.checkMouse id r).2.runOps ops).1 := by
              rw [htail]
              simp
            have e₁ : p₁.1 = qualified s.group id := grabeq p₁ hp₁ h₁
            exact lock p₂ hp₂ (by rw [e₁] at hne; exact hne)
      · have H' : (s.checkMouse id r).2.mGrabbing = true →
            (s.checkMouse id r).2.eGrabbed ≠ [] := by
          by_cases hg0 : s.eGrabbed = []
          · obtain ⟨he0, hm0⟩ := checkMouse_empty_nograb s id r hg0 hres
            intro hm1
            rw [hm0] at hm1
            exact absurd hg0 (H hm1)
          · obtain ⟨he0, _, _⟩ := checkMouse_grabbed_locked s id r hg0
            intro _
            rw [he0]
            exact hg0
        obtain ⟨ih1, ih2⟩ := ih (s.checkMouse id r).2 H'
        rw [runOps_cons_query]
        constructor
        · intro p₁ hp₁ p₂ hp₂ h₁ h₂
          simp only [List.mem_cons] at hp₁ hp₂
          rcases hp₁ with he₁ | hm₁
          · rw [he₁] at h₁
            exact absurd h₁ hres
          · rcases hp₂ with he₂ | hm₂
            · rw [he₂] at h₂
              exact absurd h₂ hres
            · exact ih1 p₁ hm₁ p₂ hm₂ h₁ h₂
        · intro l₁ p₁ l₂ p₂ l₃ heq h₁ hne
          cases l₁ with
          | nil =>
            simp only [List.nil_append] at heq
            injection heq with hhead htail
            rw [← hhead] at h₁
            exact absurd h₁ hres
          | cons x l₁' =>
            simp only [List.cons_append] at heq
            injection heq with hhead htail
            exact ih2 l₁' p₁ l₂ p₂ l₃ htail h₁ hne

/-- C2: within a single frame (the per-frame grabbing flag starts clear, as
`endFrame` leaves it), at most one distinct qualified id can receive `GRAB`
from `checkMouse` — all `GRAB` answers of the frame carry the same qualified
id — and every query made after a `GRAB` for a different qualified id
answers `NONE`. -/
theorem checkMouse_single_grab_per_frame (s : State) (ops : List Op)
    (h : s.mGrabbing = false) :
    (∀ p₁ ∈ (s.runOps ops).1, ∀ p₂ ∈ (s.runOps ops).1,
      p₁.2 = MouseAction.GRAB → p₂.2 = MouseAction.GRAB → p₁.1 = p₂.1) ∧
    (∀ l₁ p₁ l₂ p₂ l₃,
      (s.runOps ops).1 = l₁ ++ p₁ :: (l₂ ++ p₂ :: l₃) →
      p₁.2 = MouseAction.GRAB → p₂.1 ≠ p₁.1 → p₂.2 = MouseAction.NONE) ∧
    (∀ t : State, (t.endFrame).mGrabbing = false ∧
      (t.beginFrame).mGrabbing = t.mGrabbing) := by
  obtain ⟨h1, h2⟩ :=
    runOps_single_grab_aux ops s (by intro hm; rw [h] at hm; exact absurd hm (by decide))
  refine ⟨h1, h2, ?_⟩
  intro t
  constructor
  · unfold State.endFrame
    dsimp only
    split <;> rfl
  · rfl

/-- Witness for C2: a frame with two overlapping-rect queries for distinct
ids, both containing the pressed pointer. -/
theorem checkMouse_single_grab_per_frame_witness :
    (∀ p₁ ∈ (pressState.runOps c2ops).1, ∀ p₂ ∈ (pressState.runOps c2ops).1,
      p₁.2 = MouseAction.GRAB → p₂.2 = MouseAction.GRAB → p₁.1 = p₂.1) ∧
    (∀ l₁ p₁ l₂ p₂ l₃,
      (pressState.runOps c2ops).1 = l₁ ++ p₁ :: (l₂ ++ p₂ :: l₃) →
      p₁.2 = MouseAction.GRAB → p₂.1 ≠ p₁.1 → p₂.2 = MouseAction.NONE) ∧
    (∀ t : State, (t.endFrame).mGrabbing = false ∧
      (t.beginFrame).mGrabbing = t.mGrabbing) :=
  checkMouse_single_grab_per_frame pressState c2ops (by decide)

/- ======================= C7 ======================= -/

/-- C7: the nested-group fast-path scenario evaluated on the code. With
`"panel/list/item2"` grabbed, `gGrabbed` is true after entering `"panel"`,
but FALSE after entering `"list"` (the claim and the spec say it stays true):
the nested-level check in `beginGroup` compares the `idSize + 1` characters
starting at the parent prefix length — a slice that includes the separator —
against the bare `idSize`-character segment id, so it can never succeed.
The flag is then restored to true on exiting `"list"` and cleared on exiting
`"panel"`, as the claim says. -/
theorem beginGroup_nested_fastpath_scenario :
    c7s1.gGrabbed = true ∧ c7s2.gGrabbed = false ∧
    c7s3.gGrabbed = true ∧ c7s4.gGrabbed = false := by
  decide

/- ======================= C8 ======================= -/

/-- The group prefix produced by `beginGroup`. -/
theorem beginGroup_group (s : State) (id : Str) (r : SDLRect) :
    (s.beginGroup id r).group =
      if id.isEmpty then s.group
      else if s.group.length > 0 then s.group ++ groupNameSeparator :: id
      else s.group ++ id := by
  unfold State.beginGroup
  dsimp only
  repeat' split
  all_goals rfl

/-- `endGroup id` run from any state whose prefix is the one produced by the
matching `beginGroup id`, restores the prefix from before the `beginGroup`. -/
theorem endGroup_restores (s t : State) (id : Str) (rIn rOut : SDLRect)
    (h : t.group = (s.beginGroup id rIn).group) :
    (t.endGroup id rOut).group = s.group := by
  rw [beginGroup_group] at h
  by_cases hid : id.isEmpty = true
  · rw [if_pos hid] at h
    unfold State.endGroup
    rw [if_pos hid]
    exact h
  · rw [if_neg hid] at h
    have hidne : id ≠ [] := by simpa using (List.isEmpty_eq_false.mp (by simpa using hid))
    by_cases hgs : s.group.length > 0
    · rw [if_pos hgs] at h
      have hlen : ¬ id.length ≥ t.group.length := by
        rw [h]
        simp only [List.length_append, List.length_cons]
        omega
      unfold State.endGroup
      rw [if_neg hid, if_neg hlen]
      dsimp only
      rw [h]
      have hsz : (s.group ++ groupNameSeparator :: id).length - id.length - 1 =
          s.group.length := by
        simp only [List.length_append, List.length_cons]
        omega
      rw [hsz]
      exact List.take_left _ _
    · rw [if_neg hgs] at h
      have hsg : s.group = [] := by
        cases hsg : s.group with
        | nil => rfl
        | cons a l => rw [hsg] at hgs; simp at hgs
      rw [hsg] at h
      simp only [List.nil_append] at h
      have hlen : id.length ≥ t.group.length := by rw [h]
      unfold State.endGroup
      rw [if_neg hid, if_pos hlen]
      dsimp only
      rw [hsg]

mutual

/-- Running one properly nested fragment restores the group prefix. -/
theorem runGItem_group (s : State) (t : GItem) : (runGItem s t).group = s.group := by
  cases t with
  | query id r =>
    simp only [runGItem]
    exact checkMouse_group s id r
  | group id rIn rOut inner =>
    simp only [runGItem]
    exact endGroup_restores s _ id rIn rOut
      (runGItems_group (s.beginGroup id rIn) inner)

/-- Running a sequence of properly nested fragments restores the prefix. -/
theorem runGItems_group (s : State) (ts : GItems) : (runGItems s ts).group = s.group := by
  cases ts with
  | nil => simp only [runGItems]
  | cons t ts =>
    simp only [runGItems]
    exact (runGItems_group (runGItem s t) ts).trans (runGItem_group s t)

end

/-- C8: for every properly nested sequence of `beginGroup`/`endGroup` (and
`checkMouse`) calls, the qualified-id prefix after a matched
`beginGroup id`/`endGroup id` pair equals the prefix current immediately
before the `beginGroup` call. -/
theorem group_prefix_roundtrip (s : State) (id : Str) (rIn rOut : SDLRect)
    (inner : GItems) :
    ((runGItems (s.beginGroup id rIn) inner).endGroup id rOut).group = s.group :=
  endGroup_restores s _ id rIn rOut (runGItems_group (s.beginGroup id rIn) inner)

end Dui
